import Mathlib

/-!
Verification development for the Telegram data-collection tool in
`src/main.py` (classes `TelegramParserThread`, `MembersParserThread`,
`MessagesParserThread`, `CommentsParserThread`, `ReactionsParserThread`,
and the helper `get_user_status_text`).

The program text is shallowly embedded: strings are `List Char`, Python
string builtins (`strip`, `replace`, `split`, `startswith`, `int(...)`,
the `or` default idiom) are modelled as executable Lean functions with
Python's semantics on the inputs the program uses; the asynchronous
remote API is an explicit environment (every remote result the code can
observe is a field), and the GUI signals plus the remote calls a run
performs are recorded in order as an event trace.  The cooperative
cancellation flag `self.is_running` is modelled by the index at which the
flag starts reading false: every read of the flag consumes one index, in
program order, and once the flag reads false it stays false (the GUI only
ever sets it from true to false).  A credential-wait poll loop is one
read: if the credential was supplied the loop exits with it, otherwise
the loop can only exit by cancellation (a run that blocks forever on a
never-supplied credential is represented by its cancelled exit).
-/

namespace TGpars

/-! ## Python string primitives -/

/-- Python `str.strip()` with no argument: remove leading and trailing
whitespace. -/
def pyStrip (s : List Char) : List Char :=
  ((s.dropWhile fun c => c.isWhitespace).reverse.dropWhile fun c =>
    c.isWhitespace).reverse

/-- Fuel-driven worker for `str.replace`: replace non-overlapping
occurrences of `old` left to right.  Fuel is the length of the string, so
with full fuel the behaviour is exactly Python's for the nonempty
patterns the program uses (each step consumes at least one character). -/
def pyReplaceAux (old new : List Char) : Nat → List Char → List Char
  | _, [] => []
  | 0, s => s
  | fuel + 1, c :: rest =>
    if old ≠ [] ∧ old.isPrefixOf (c :: rest) then
      new ++ pyReplaceAux old new fuel ((c :: rest).drop old.length)
    else
      c :: pyReplaceAux old new fuel rest

/-- Python `s.replace(old, new)` for a nonempty pattern `old`. -/
def pyReplace (old new s : List Char) : List Char :=
  pyReplaceAux old new s.length s

/-- Python `s.split(sep)` for a single-character separator: always
returns a nonempty list of fields (the recursive result is nonempty, so
prepending to its head loses nothing). -/
def pySplit (sep : Char) : List Char → List (List Char)
  | [] => [[]]
  | c :: rest =>
    let r := pySplit sep rest
    if c = sep then [] :: r else (c :: r.headD []) :: r.tail

/-- Python `s.split(sep)[0]`: the field before the first separator. -/
def split0 (sep : Char) (s : List Char) : List Char :=
  (pySplit sep s).headD []

/-- Python falsy-`or` on an optional string: `x or b` where `x` may be
`None` or a string (`None` and the empty string both fall through). -/
def pyStrOr (a : Option (List Char)) (b : List Char) : List Char :=
  match a with
  | Option.none => b
  | some s => if s = [] then b else s

/-- Numeric value of a digit list. -/
def digitsVal (ds : List Char) : Nat :=
  ds.foldl (fun a c => a * 10 + (c.toNat - '0'.toNat)) 0

/-- Python `int(s)` on the strings this program feeds it: optional sign,
then decimal digits, surrounding whitespace allowed; `Option.none` models
the `ValueError` raised on anything else.  (Digit-group underscores and
non-ASCII digits, which the program never produces, are not modelled.) -/
def pyInt (s : List Char) : Option Int :=
  match pyStrip s with
  | '+' :: ds =>
    if ds ≠ [] ∧ ds.all (·.isDigit) then some (Int.ofNat (digitsVal ds))
    else Option.none
  | '-' :: ds =>
    if ds ≠ [] ∧ ds.all (·.isDigit) then some (-(Int.ofNat (digitsVal ds)))
    else Option.none
  | ds =>
    if ds ≠ [] ∧ ds.all (·.isDigit) then some (Int.ofNat (digitsVal ds))
    else Option.none

/-! ## Link normalization (`MembersParserThread._clean_link`) and
post-link parsing (`CommentsParserThread.parse` / `ReactionsParserThread.parse`) -/

/-- The literal `"https://t.me/"`. -/
def httpsPat : List Char := "https://t.me/".toList

/-- The literal `"t.me/"`. -/
def tmePat : List Char := "t.me/".toList

/-- The guarded truncation `if sep in link: link = link.split(sep)[0]`
used twice at the end of `_clean_link`. -/
def dropAfter (sep : Char) (l : List Char) : List Char :=
  if sep ∈ l then split0 sep l else l

/-- `MembersParserThread._clean_link` (src/main.py lines 255-264):
strip, drop URL prefixes, drop one leading `@`, keep the part before the
first `/`, then before the first `?`. -/
def cleanLink (link : List Char) : List Char :=
  let l1 := pyStrip link
  let l2 := pyReplace httpsPat [] l1
  let l3 := pyReplace tmePat [] l2
  let l4 := if "@".toList.isPrefixOf l3 then l3.drop 1 else l3
  dropAfter '?' (dropAfter '/' l4)

/-- The shared first step of post-link handling in
`CommentsParserThread.parse` (line 344) and `ReactionsParserThread.parse`
(line 406): strip, drop URL prefixes.  No `@` is dropped here. -/
def stripPrefixes (link : List Char) : List Char :=
  pyReplace tmePat [] (pyReplace httpsPat [] (pyStrip link))

/-- `parts = link.split("/")` on the stripped post link (lines 345/407). -/
def postLinkParts (link : List Char) : List (List Char) :=
  pySplit '/' (stripPrefixes link)

/-- The channel part `parts[0]` of a post link, when the link has at
least two `/`-separated parts (lines 346-349 / 408-411). -/
def postChannelPart (link : List Char) : Option (List Char) :=
  match postLinkParts link with
  | p0 :: _ :: _ => some p0
  | _ => Option.none

/-- The message-id string `parts[1].split("?")[0]` of a post link, when
the link has at least two parts (line 349 / 411). -/
def postMsgIdStr (link : List Char) : Option (List Char) :=
  match postLinkParts link with
  | _ :: p1 :: _ => some (split0 '?' p1)
  | _ => Option.none

/-! ## Presence statuses and `get_user_status_text` -/

/-- A Telethon `UserStatus` variant.  `offline` carries the already
`strftime`-formatted `was_online` timestamp (date formatting itself is
not re-modelled); `other` stands for any variant outside the known set
(the source's final fallthrough). -/
inductive UserStatus
  | online
  | offline (wasOnline : List Char)
  | recently
  | lastWeek
  | lastMonth
  | empty
  | other
deriving DecidableEq

/-- `get_user_status_text` (src/main.py lines 34-51); `Option.none` is a
`None` status object. -/
def getUserStatusText : Option UserStatus → List Char
  | Option.none => "Скрыто".toList
  | some .online => "Онлайн".toList
  | some (.offline _) => "Оффлайн".toList
  | some .recently => "Недавно".toList
  | some .lastWeek => "Был на этой неделе".toList
  | some .lastMonth => "Был в этом месяце".toList
  | some .empty => "Скрыто".toList
  | some .other => "Давно".toList

/-! ## Remote data model -/

/-- A Telethon user, with the fields the program reads.  Optional string
fields model attributes that may be `None`. -/
structure User where
  id : Int
  username : Option (List Char)
  firstName : Option (List Char)
  lastName : Option (List Char)
  phone : Option (List Char)
  status : Option UserStatus
  bot : Bool
  verified : Bool
  scam : Bool
  premium : Bool
deriving DecidableEq

/-- A resolved entity.  `title` is `Option` because `getattr(entity,
'title', default)` is used: a resolved user has no title.
`participantsCount` is read only when `isChannel`. -/
structure Entity where
  title : Option (List Char)
  isChannel : Bool
  participantsCount : Nat
deriving DecidableEq

/-- A Telethon message, with the fields the program reads.  `date` is the
already-formatted `strftime` value; `media` is `type(m.media).__name__`
when media is present; `sender` is the result `await m.get_sender()`
would produce (`Option.none` both for an unresolvable sender). -/
structure Msg where
  id : Int
  date : List Char
  text : Option (List Char)
  message : Option (List Char)
  media : Option (List Char)
  sender : Option User
deriving DecidableEq

/-- One entry of `response.reactions` in the reactions-list response:
the reacting peer's user id and the reaction emoticon. -/
structure RPeer where
  userId : Int
  emoticon : List Char
deriving DecidableEq

/-- The `GetMessageReactionsListRequest` response: parallel `users` and
`reactions` lists. -/
structure ReactResponse where
  users : List User
  reactions : List RPeer
deriving DecidableEq

/-! ## Result records -/

/-- A Python dict value as this program stores them: an int, a string,
or `None` (`sender.username if sender else ''` yields `None` when the
sender exists but has no username). -/
inductive Val
  | int (n : Int)
  | str (cs : List Char)
  | pyNone
deriving DecidableEq

/-- A result record: an ordered field-name/value association list,
modelling the insertion-ordered Python dict. -/
abbrev Record := List (List Char × Val)

/-- Field lookup in a record (first occurrence). -/
def recField (name : List Char) (r : Record) : Option Val :=
  (r.find? fun p => p.1 == name).map fun p => p.2

/-- `'Да'`. -/
def yesStr : List Char := "Да".toList
/-- `'Нет'`. -/
def noStr : List Char := "Нет".toList
/-- `'Скрыто'`. -/
def hiddenStr : List Char := "Скрыто".toList

/-- The member record built per user in `MembersParserThread.parse`
(lines 222-240). -/
def memberRecord (adminIds : List Int) (u : User) : Record :=
  let lastOnline : List Char :=
    match u.status with
    | some (.offline t) => t
    | _ => []
  [ ("ID".toList, .int u.id),
    ("Username".toList, .str (pyStrOr u.username [])),
    ("First Name".toList, .str (pyStrOr u.firstName [])),
    ("Last Name".toList, .str (pyStrOr u.lastName [])),
    ("Phone".toList, .str (pyStrOr u.phone [])),
    ("Status".toList, .str (getUserStatusText u.status)),
    ("Last Online".toList,
      .str (if lastOnline = [] then hiddenStr else lastOnline)),
    ("Is Bot".toList, .str (if u.bot then yesStr else noStr)),
    ("Is Verified".toList, .str (if u.verified then yesStr else noStr)),
    ("Is Scam".toList, .str (if u.scam then yesStr else noStr)),
    ("Is Premium".toList, .str (if u.premium then yesStr else noStr)),
    ("Is Admin".toList,
      .str (if u.id ∈ adminIds then yesStr else noStr)) ]

/-- The optional-attribute pattern `sender.attr if sender else ''` for an
optional string attribute: `''` when there is no sender, `None` when the
sender lacks the attribute. -/
def senderAttr (sender : Option User) (attr : User → Option (List Char)) :
    Val :=
  match sender with
  | some u =>
    match attr u with
    | some s => Val.str s
    | Option.none => Val.pyNone
  | Option.none => Val.str []

/-- The message record built per message in `MessagesParserThread.parse`
(lines 304-313). -/
def msgRecord (m : Msg) : Record :=
  [ ("Message ID".toList, .int m.id),
    ("Author ID".toList,
      match m.sender with
      | some u => Val.int u.id
      | Option.none => Val.str []),
    ("Username".toList, senderAttr m.sender User.username),
    ("First Name".toList, senderAttr m.sender User.firstName),
    ("Last Name".toList, senderAttr m.sender User.lastName),
    ("Date".toList, .str m.date),
    ("Text".toList, .str ((pyStrOr m.text (pyStrOr m.message [])).take 4096)),
    ("Media Type".toList, .str (m.media.getD [])) ]

/-- The comment record built per reply in `CommentsParserThread.parse`
(lines 368-376). -/
def commentRecord (m : Msg) : Record :=
  [ ("Comment ID".toList, .int m.id),
    ("Author ID".toList,
      match m.sender with
      | some u => Val.int u.id
      | Option.none => Val.str []),
    ("Username".toList, senderAttr m.sender User.username),
    ("First Name".toList, senderAttr m.sender User.firstName),
    ("Last Name".toList, senderAttr m.sender User.lastName),
    ("Text".toList, .str (pyStrOr m.text (pyStrOr m.message []))),
    ("Date".toList, .str m.date) ]

/-- The emoji cross-reference in `ReactionsParserThread.parse` (line
432): first reaction entry whose peer user id matches, else the `'🧩'`
placeholder. -/
def reactEmoji (rs : List RPeer) (u : User) : List Char :=
  ((rs.find? fun r => r.userId == u.id).map RPeer.emoticon).getD "🧩".toList

/-- The reaction record built per user in `ReactionsParserThread.parse`
(lines 433-439). -/
def reactionRecord (rs : List RPeer) (u : User) : Record :=
  [ ("Emoji".toList, .str (reactEmoji rs u)),
    ("User ID".toList, .int u.id),
    ("Username".toList, .str (pyStrOr u.username [])),
    ("First Name".toList, .str (pyStrOr u.firstName [])),
    ("Last Name".toList, .str (pyStrOr u.lastName [])) ]

/-! ## Events, outcomes, run results -/

/-- One observable step of a job: a remote-API interaction or an emitted
Qt signal, in program order.  `progress` is `progress_signal`,
`progressValue` is `progress_value`, `errorSig` is `error_signal`,
`authCodePrompt` is `auth_code_needed`, `authPasswordPrompt` is
`auth_password_needed`. -/
inductive Ev
  | connect
  | checkAuthorized
  | getMe
  | sendCode (phone : List Char)
  | signInCode (phone code : List Char)
  | signInPassword (pwd : List Char)
  | getEntity (name : List Char)
  | getFullChannel
  | iterAdmins
  | iterParticipants (limit : Nat)
  | iterMessages (limit : Nat) (replyTo : Option Int)
  | getReactions (msgId : Int) (limit : Nat)
  | getSender (msgId : Int)
  | progress (msg : List Char)
  | progressValue (n : Nat)
  | errorSig (msg : List Char)
  | authCodePrompt (msg : List Char)
  | authPasswordPrompt
deriving DecidableEq

/-- Whether an event is a remote fetch beyond the authentication
handshake (entity resolution or data retrieval). -/
def Ev.isRemoteFetch : Ev → Bool
  | .getEntity _ => true
  | .getFullChannel => true
  | .iterAdmins => true
  | .iterParticipants _ => true
  | .iterMessages _ _ => true
  | .getReactions _ _ => true
  | .getSender _ => true
  | _ => false

/-- The terminal outcome of one `parse` run: `completed` is a
`finished_signal` emission, `failed` an `error_signal` emission followed
by return, `cancelled` a silent return (cancellation, or an exception
swallowed because the flag was already false). -/
inductive Outcome
  | completed (title : List Char) (records : List Record)
  | failed (msg : List Char)
  | cancelled
deriving DecidableEq

/-- The result of a whole `parse` run: its event trace, its terminal
outcome, and the number of `is_running` flag reads it performed. -/
structure RunResult where
  events : List Ev
  outcome : Outcome
  checks : Nat
deriving DecidableEq

/-- How `ensure_auth` ended: authorized, failed with the error-signal
text it emitted, or exited on cancellation. -/
inductive AuthRes
  | ok
  | err (msg : List Char)
  | cancelled
deriving DecidableEq

/-- The result of `ensure_auth`: its events, how it ended, and the next
unused flag-read index. -/
structure AuthOut where
  events : List Ev
  res : AuthRes
  k : Nat
deriving DecidableEq

/-! ## Cancellation model -/

/-- The `self.is_running` flag as seen by its `i`-th read: `cancelAt =
some c` means reads `0, …, c-1` see true and every later read sees false
(the GUI's `stop()` writes false exactly once); `none` is a run that is
never cancelled. -/
def runningAt (cancelAt : Option Nat) (i : Nat) : Bool :=
  match cancelAt with
  | Option.none => true
  | some c => decide (i < c)

/-! ## Authentication environment and `ensure_auth` -/

/-- Result of one `send_code_request` attempt. -/
inductive SendCodeRes
  | ok
  | floodWait (secs : Nat)
  | fail (msg : List Char)
deriving DecidableEq

/-- Result of `sign_in(phone=…, code=…)`. -/
inductive SignInRes
  | ok
  | passwordNeeded
  | fail (msg : List Char)
deriving DecidableEq

/-- Everything the remote side and the dialog-answering GUI contribute
to `ensure_auth`: whether the stored session is authorized, the
first name `get_me` reports, the credentials the user supplies into the
shared slots (`Option.none` = never supplied), the successive
`send_code_request` results (one per attempt; flood-wait retries consume
the list), and the sign-in results. -/
structure AuthEnv where
  isAuthorized : Bool
  meFirstName : List Char
  phoneInput : Option (List Char)
  codeInput : Option (List Char)
  passwordInput : Option (List Char)
  sendCodeResults : List SendCodeRes
  signInRes : SignInRes
  pwdSignInErr : Option (List Char)
deriving DecidableEq

/-- `f"✅ Авторизован как: {me.first_name}"`. -/
def authOkMsg (name : List Char) : List Char :=
  "✅ Авторизован как: ".toList ++ name
/-- The phone prompt text. -/
def phonePromptMsg : List Char :=
  "Введите номер телефона (например: +1234567890)".toList
/-- `f"📤 Отправляем код на {phone}…"`. -/
def sendingCodeMsg (phone : List Char) : List Char :=
  "📤 Отправляем код на ".toList ++ phone ++ "…".toList
/-- `f"⏳ FloodWait: {e.seconds} сек"`. -/
def floodMsg (n : Nat) : List Char :=
  "⏳ FloodWait: ".toList ++ (Nat.repr n).toList ++ " сек".toList
/-- `f"❌ Не удалось отправить код: {str(e)}"`. -/
def sendFailMsg (e : List Char) : List Char :=
  "❌ Не удалось отправить код: ".toList ++ e
/-- `f"Введите код из SMS/Telegram для {phone}"`. -/
def codePromptMsg (phone : List Char) : List Char :=
  "Введите код из SMS/Telegram для ".toList ++ phone
/-- `"✅ Авторизация успешна"`. -/
def authDoneMsg : List Char := "✅ Авторизация успешна".toList
/-- `"🔐 Требуется пароль 2FA…"`. -/
def twoFaNeedMsg : List Char := "🔐 Требуется пароль 2FA…".toList
/-- `"✅ Авторизация с 2FA успешна"`. -/
def twoFaOkMsg : List Char := "✅ Авторизация с 2FA успешна".toList
/-- `f"❌ Неверный пароль 2FA: {pwd_error}"`. -/
def twoFaBadMsg (e : List Char) : List Char :=
  "❌ Неверный пароль 2FA: ".toList ++ e
/-- `f"❌ Ошибка авторизации: {sign_err}"`. -/
def authErrMsg (e : List Char) : List Char :=
  "❌ Ошибка авторизации: ".toList ++ e

/-- The code-challenge half of `ensure_auth` (lines 121-151): prompt for
the code, wait, `sign_in(phone, code)`, and the optional 2FA password
round.  `evs` is the trace so far, `k` the next flag-read index. -/
def afterCode (env : AuthEnv) (ca : Option Nat) (phone : List Char)
    (evs : List Ev) (k : Nat) : AuthOut :=
  let evs1 := evs ++ [Ev.authCodePrompt (codePromptMsg phone)]
  match env.codeInput with
  | Option.none => ⟨evs1, .cancelled, k + 1⟩
  | some cd =>
    if runningAt ca k then
      let code := pyStrip cd
      let evs2 := evs1 ++ [Ev.signInCode phone code]
      match env.signInRes with
      | .ok => ⟨evs2 ++ [Ev.progress authDoneMsg], .ok, k + 1⟩
      | .fail m =>
        ⟨evs2 ++ [Ev.errorSig (authErrMsg m)], .err (authErrMsg m), k + 1⟩
      | .passwordNeeded =>
        let evs3 := evs2 ++ [Ev.progress twoFaNeedMsg, Ev.authPasswordPrompt]
        match env.passwordInput with
        | Option.none => ⟨evs3, .cancelled, k + 2⟩
        | some pw =>
          if runningAt ca (k + 1) then
            match env.pwdSignInErr with
            | Option.none =>
              ⟨evs3 ++ [Ev.signInPassword pw, Ev.progress twoFaOkMsg], .ok,
                k + 2⟩
            | some m =>
              ⟨evs3 ++ [Ev.signInPassword pw, Ev.errorSig (twoFaBadMsg m)],
                .err (twoFaBadMsg m), k + 2⟩
          else ⟨evs3, .cancelled, k + 2⟩
    else ⟨evs1, .cancelled, k + 1⟩

/-- The part of `ensure_auth` before `send_code_request` (lines 95-110):
`ensure_client`, the authorization check and short circuit, the phone
prompt and its wait.  `Sum.inl` is an early return (short circuit or
cancellation); `Sum.inr` carries the stripped phone, the trace so far,
and the next flag-read index. -/
def authPre (env : AuthEnv) (ca : Option Nat) (connected : Bool) (k : Nat) :
    AuthOut ⊕ (List Char × List Ev × Nat) :=
  let head : List Ev :=
    (if connected then [] else [Ev.connect]) ++ [Ev.checkAuthorized]
  if env.isAuthorized then
    Sum.inl ⟨head ++ [Ev.getMe, Ev.progress (authOkMsg env.meFirstName)],
      .ok, k⟩
  else
    let evs1 := head ++ [Ev.authCodePrompt phonePromptMsg]
    match env.phoneInput with
    | Option.none => Sum.inl ⟨evs1, .cancelled, k + 1⟩
    | some ph =>
      if runningAt ca k then
        let phone := pyStrip ph
        Sum.inr (phone,
          evs1 ++ [Ev.progress (sendingCodeMsg phone), Ev.sendCode phone],
          k + 1)
      else Sum.inl ⟨evs1, .cancelled, k + 1⟩

/-- `ensure_auth` (lines 93-151), recursing over the remaining
`send_code_request` attempt results on `FloodWaitError` exactly as the
source re-invokes itself.  `connected` records that `ensure_client`
already connected (the retry's `ensure_client` call finds the client
connected and does not reconnect).  An exhausted attempt list behaves as
a failing `send_code_request` with empty error text. -/
def ensureAuthGo (env : AuthEnv) (ca : Option Nat) :
    List SendCodeRes → Bool → Nat → AuthOut
  | [], connected, k =>
    match authPre env ca connected k with
    | Sum.inl r => r
    | Sum.inr (_, evs2, k') =>
      ⟨evs2 ++ [Ev.errorSig (sendFailMsg [])], .err (sendFailMsg []), k'⟩
  | a :: rest, connected, k =>
    match authPre env ca connected k with
    | Sum.inl r => r
    | Sum.inr (phone, evs2, k') =>
      match a with
      | .ok => afterCode env ca phone evs2 k'
      | .fail m =>
        ⟨evs2 ++ [Ev.errorSig (sendFailMsg m)], .err (sendFailMsg m), k'⟩
      | .floodWait n =>
        let r := ensureAuthGo env ca rest true k'
        ⟨evs2 ++ [Ev.progress (floodMsg n)] ++ r.events, r.res, r.k⟩

/-- `ensure_auth` as each `parse` calls it: fresh client, all configured
attempts available, flag reads starting at index `k`. -/
def ensureAuth (env : AuthEnv) (ca : Option Nat) (k : Nat) : AuthOut :=
  ensureAuthGo env ca env.sendCodeResults false k

/-! ## Shared fetch loop -/

/-- The per-item fetch loop shared by the members, messages and comments
collectors: for each yielded item, read the cancellation flag and break
on false, else buffer the item and, when the buffer size is a multiple
of 50, emit the collector's progress events (`mkEvs` applied to the
size).  Telethon's iterators yield at most `limit` items, which the
callers model by truncating the source list before entering.  Returns
the buffer, the emitted events, and the next flag-read index. -/
def fetchLoop (ca : Option Nat) (mkEvs : Nat → List Ev) :
    List α → Nat → List α → List Ev → List α × List Ev × Nat
  | [], k, acc, evs => (acc, evs, k)
  | x :: rest, k, acc, evs =>
    if runningAt ca k then
      let acc' := acc ++ [x]
      let evs' :=
        if acc'.length % 50 == 0 then evs ++ mkEvs acc'.length else evs
      fetchLoop ca mkEvs rest (k + 1) acc' evs'
    else (acc, evs, k + 1)

/-! ## MembersParserThread -/

/-- What the remote side contributes to a members run: the
`get_entity` result (`Except.error` carries the exception text), the
admin-iteration result (`Option.none` models the swallowed exception of
lines 202-206), and the participants the iterator yields. -/
structure MembersEnv where
  getEntityRes : Except (List Char) Entity
  adminIdsRes : Option (List Int)
  participants : List User

/-- `"🔄 Инициализация клиента…"`. -/
def initMsg : List Char := "🔄 Инициализация клиента…".toList
/-- `f"🔍 Поиск группы: @{chat_username}"`. -/
def searchMsg (ch : List Char) : List Char :=
  "🔍 Поиск группы: @".toList ++ ch
/-- `f"❌ Не удалось найти группу: {e}"`. -/
def entityFailMsg (e : List Char) : List Char :=
  "❌ Не удалось найти группу: ".toList ++ e
/-- `f"📊 Группа: {getattr(entity, 'title', '')}"`. -/
def groupMsg (t : List Char) : List Char := "📊 Группа: ".toList ++ t
/-- `f"👥 Участников: {members_count}"`. -/
def countMsg (ent : Entity) : List Char :=
  "👥 Участников: ".toList ++
    (if ent.isChannel then (Nat.repr ent.participantsCount).toList
     else "Неизвестно".toList)
/-- `f"📥 Получено участников: {len(members)}"`. -/
def gotMembersMsg (n : Nat) : List Char :=
  "📥 Получено участников: ".toList ++ (Nat.repr n).toList
/-- `f"🔄 Обработано: {idx + 1}/{len(members)}"`. -/
def processedMsg (i total : Nat) : List Char :=
  "🔄 Обработано: ".toList ++ (Nat.repr i).toList ++ "/".toList ++
    (Nat.repr total).toList
/-- `f"❌ Критическая ошибка: {e}"`. -/
def criticalMsg (e : List Char) : List Char :=
  "❌ Критическая ошибка: ".toList ++ e

/-- The transform loop of `MembersParserThread.parse` (lines 219-243):
per buffered user, read the flag and break on false, else append the
member record and emit progress every 50. -/
def membersTransform (ca : Option Nat) (adminIds : List Int) (total : Nat) :
    List User → Nat → Nat → List Record → List Ev →
      List Record × List Ev × Nat
  | [], k, _, acc, evs => (acc, evs, k)
  | u :: rest, k, idx, acc, evs =>
    if runningAt ca k then
      let acc' := acc ++ [memberRecord adminIds u]
      let evs' :=
        if (idx + 1) % 50 == 0 then
          evs ++ [Ev.progress (processedMsg (idx + 1) total),
            Ev.progressValue (idx + 1)]
        else evs
      membersTransform ca adminIds total rest (k + 1) (idx + 1) acc' evs'
    else (acc, evs, k + 1)

/-- `MembersParserThread.parse` (lines 173-253). -/
def membersParse (aenv : AuthEnv) (menv : MembersEnv) (link : List Char)
    (limit : Nat) (ca : Option Nat) : RunResult :=
  if runningAt ca 0 then
    let evs0 : List Ev := [Ev.progress initMsg]
    let a := ensureAuth aenv ca 1
    match a.res with
    | .err m => ⟨evs0 ++ a.events, .failed m, a.k⟩
    | .cancelled => ⟨evs0 ++ a.events, .cancelled, a.k⟩
    | .ok =>
      if runningAt ca a.k then
        let k1 := a.k + 1
        let ch := cleanLink link
        let evs1 := evs0 ++ a.events ++
          [Ev.progress (searchMsg ch), Ev.getEntity ch]
        match menv.getEntityRes with
        | .error e =>
          ⟨evs1 ++ [Ev.errorSig (entityFailMsg e)],
            .failed (entityFailMsg e), k1⟩
        | .ok ent =>
          let evs2 := evs1 ++
            (if ent.isChannel then [Ev.getFullChannel] else []) ++
            [Ev.progress (groupMsg (ent.title.getD [])),
              Ev.progress (countMsg ent), Ev.iterAdmins,
              Ev.iterParticipants limit]
          let admins := menv.adminIdsRes.getD []
          let fr := fetchLoop ca
            (fun n => [Ev.progress (gotMembersMsg n),
              Ev.progressValue (min n limit)])
            (menv.participants.take limit) k1 [] []
          let tr := membersTransform ca admins fr.1.length fr.1 fr.2.2 0 [] []
          let evs3 := evs2 ++ fr.2.1 ++ tr.2.1
          if runningAt ca tr.2.2 then
            ⟨evs3, .completed (ent.title.getD []) tr.1, tr.2.2 + 1⟩
          else ⟨evs3, .cancelled, tr.2.2 + 1⟩
      else ⟨[Ev.progress initMsg] ++ a.events, .cancelled, a.k + 1⟩
  else ⟨[], .cancelled, 1⟩

/-! ## MessagesParserThread -/

/-- What the remote side contributes to a messages run. -/
structure MsgsEnv where
  getEntityRes : Except (List Char) Entity
  messages : List Msg

/-- `f"💬 Чат: {getattr(entity, 'title', chat_username)}"`. -/
def chatMsg (t : List Char) : List Char := "💬 Чат: ".toList ++ t
/-- `"📥 Получаю сообщения…"`. -/
def gettingMsgsMsg : List Char := "📥 Получаю сообщения…".toList
/-- `f"🔄 Получено сообщений: {len(messages)}"`. -/
def gotMsgsMsg (n : Nat) : List Char :=
  "🔄 Получено сообщений: ".toList ++ (Nat.repr n).toList
/-- `f"Сообщения чата {getattr(entity, 'title', chat_username)}"`. -/
def msgsTitle (t : List Char) : List Char := "Сообщения чата ".toList ++ t

/-- `MessagesParserThread.parse` (lines 278-321).  The unguarded
`get_entity` exception reaches the outer handler, which reads the flag
before deciding between an error signal and a silent return. -/
def messagesParse (aenv : AuthEnv) (menv : MsgsEnv) (link : List Char)
    (limit : Nat) (ca : Option Nat) : RunResult :=
  if runningAt ca 0 then
    let evs0 : List Ev := [Ev.progress initMsg]
    let a := ensureAuth aenv ca 1
    match a.res with
    | .err m => ⟨evs0 ++ a.events, .failed m, a.k⟩
    | .cancelled => ⟨evs0 ++ a.events, .cancelled, a.k⟩
    | .ok =>
      let ch := cleanLink link
      let evs1 := evs0 ++ a.events ++ [Ev.getEntity ch]
      match menv.getEntityRes with
      | .error e =>
        if runningAt ca a.k then
          ⟨evs1 ++ [Ev.errorSig (criticalMsg e)], .failed (criticalMsg e),
            a.k + 1⟩
        else ⟨evs1, .cancelled, a.k + 1⟩
      | .ok ent =>
        let title := ent.title.getD ch
        let evs2 := evs1 ++ [Ev.progress (chatMsg title),
          Ev.progress gettingMsgsMsg, Ev.iterMessages limit Option.none]
        let fr := fetchLoop ca
          (fun n => [Ev.progress (gotMsgsMsg n), Ev.progressValue n])
          (menv.messages.take limit) a.k [] []
        let evs3 := evs2 ++ fr.2.1 ++ fr.1.map fun m => Ev.getSender m.id
        if runningAt ca fr.2.2 then
          ⟨evs3, .completed (msgsTitle title) (fr.1.map msgRecord),
            fr.2.2 + 1⟩
        else ⟨evs3, .cancelled, fr.2.2 + 1⟩
  else ⟨[], .cancelled, 1⟩

/-! ## CommentsParserThread -/

/-- What the remote side contributes to a comments run. -/
structure CommentsEnv where
  getEntityRes : Except (List Char) Entity
  comments : List Msg

/-- `"❌ Некорректная ссылка на пост"`. -/
def commentsLinkErr : List Char := "❌ Некорректная ссылка на пост".toList
/-- `f"📄 Канал: {…} | Пост #{msg_id}"`. -/
def postMsgText (t : List Char) (mid : Int) : List Char :=
  "📄 Канал: ".toList ++ t ++ " | Пост #".toList ++ (Int.repr mid).toList
/-- `"💬 Получаю комментарии…"`. -/
def gettingCommentsMsg : List Char := "💬 Получаю комментарии…".toList
/-- `f"🔄 Получено комментариев: {len(comments)}"`. -/
def gotCommentsMsg (n : Nat) : List Char :=
  "🔄 Получено комментариев: ".toList ++ (Nat.repr n).toList
/-- `f"Комментарии к посту #{msg_id}"`. -/
def commentsTitle (mid : Int) : List Char :=
  "Комментарии к посту #".toList ++ (Int.repr mid).toList
/-- The text of the `ValueError` raised by `int()` on a non-numeric
message-id string. -/
def intErrText (s : List Char) : List Char :=
  "invalid literal for int() with base 10: ".toList ++ s

/-- `CommentsParserThread.parse` (lines 335-384). -/
def commentsParse (aenv : AuthEnv) (cenv : CommentsEnv) (link : List Char)
    (limit : Nat) (ca : Option Nat) : RunResult :=
  if runningAt ca 0 then
    let evs0 : List Ev := [Ev.progress initMsg]
    let a := ensureAuth aenv ca 1
    match a.res with
    | .err m => ⟨evs0 ++ a.events, .failed m, a.k⟩
    | .cancelled => ⟨evs0 ++ a.events, .cancelled, a.k⟩
    | .ok =>
      match postLinkParts link with
      | p0 :: p1 :: _ =>
        let midStr := split0 '?' p1
        match pyInt midStr with
        | Option.none =>
          if runningAt ca a.k then
            ⟨evs0 ++ a.events ++
              [Ev.errorSig (criticalMsg (intErrText midStr))],
              .failed (criticalMsg (intErrText midStr)), a.k + 1⟩
          else ⟨evs0 ++ a.events, .cancelled, a.k + 1⟩
        | some mid =>
          let evs1 := evs0 ++ a.events ++ [Ev.getEntity p0]
          match cenv.getEntityRes with
          | .error e =>
            if runningAt ca a.k then
              ⟨evs1 ++ [Ev.errorSig (criticalMsg e)],
                .failed (criticalMsg e), a.k + 1⟩
            else ⟨evs1, .cancelled, a.k + 1⟩
          | .ok ent =>
            let evs2 := evs1 ++
              [Ev.progress (postMsgText (ent.title.getD p0) mid),
                Ev.progress gettingCommentsMsg,
                Ev.iterMessages limit (some mid)]
            let fr := fetchLoop ca
              (fun n => [Ev.progress (gotCommentsMsg n),
                Ev.progressValue (min n limit)])
              (cenv.comments.take limit) a.k [] []
            let evs3 := evs2 ++ fr.2.1 ++
              fr.1.map fun m => Ev.getSender m.id
            if runningAt ca fr.2.2 then
              ⟨evs3, .completed (commentsTitle mid) (fr.1.map commentRecord),
                fr.2.2 + 1⟩
            else ⟨evs3, .cancelled, fr.2.2 + 1⟩
      | _ =>
        ⟨evs0 ++ a.events ++ [Ev.errorSig commentsLinkErr],
          .failed commentsLinkErr, a.k⟩
  else ⟨[], .cancelled, 1⟩

/-! ## ReactionsParserThread -/

/-- What the remote side contributes to a reactions run. -/
structure ReactionsEnv where
  getEntityRes : Except (List Char) Entity
  reactionsRes : Except (List Char) ReactResponse

/-- `"❌ Неверная ссылка на пост"`. -/
def reactionsLinkErr : List Char := "❌ Неверная ссылка на пост".toList
/-- `f"📄 Канал/чат: {…} | Пост #{msg_id}"`. -/
def reactPostMsg (t : List Char) (mid : Int) : List Char :=
  "📄 Канал/чат: ".toList ++ t ++ " | Пост #".toList ++ (Int.repr mid).toList
/-- `f"ℹ️ Ошибка получения реакций: {e}"`. -/
def reactFetchErr (e : List Char) : List Char :=
  "ℹ️ Ошибка получения реакций: ".toList ++ e
/-- `f"Реакции поста #{msg_id}"`. -/
def reactionsTitle (mid : Int) : List Char :=
  "Реакции поста #".toList ++ (Int.repr mid).toList

/-- The record-building loop of `ReactionsParserThread.parse` (lines
430-441): append a record per response user, breaking *after* the append
as soon as `len(parsed) >= limit`.  No flag read happens inside. -/
def reactGo (rs : List RPeer) (limit : Nat) :
    List User → List Record → List Record
  | [], acc => acc
  | u :: rest, acc =>
    let acc' := acc ++ [reactionRecord rs u]
    if limit ≤ acc'.length then acc' else reactGo rs limit rest acc'

/-- `ReactionsParserThread.parse` (lines 398-449).  Note: no
initialization progress message, and the reactions-fetch error signal of
line 427 is emitted without reading the flag. -/
def reactionsParse (aenv : AuthEnv) (renv : ReactionsEnv) (link : List Char)
    (limit : Nat) (ca : Option Nat) : RunResult :=
  if runningAt ca 0 then
    let a := ensureAuth aenv ca 1
    match a.res with
    | .err m => ⟨a.events, .failed m, a.k⟩
    | .cancelled => ⟨a.events, .cancelled, a.k⟩
    | .ok =>
      match postLinkParts link with
      | p0 :: p1 :: _ =>
        let midStr := split0 '?' p1
        match pyInt midStr with
        | Option.none =>
          if runningAt ca a.k then
            ⟨a.events ++ [Ev.errorSig (criticalMsg (intErrText midStr))],
              .failed (criticalMsg (intErrText midStr)), a.k + 1⟩
          else ⟨a.events, .cancelled, a.k + 1⟩
        | some mid =>
          let evs1 := a.events ++ [Ev.getEntity p0]
          match renv.getEntityRes with
          | .error e =>
            if runningAt ca a.k then
              ⟨evs1 ++ [Ev.errorSig (criticalMsg e)],
                .failed (criticalMsg e), a.k + 1⟩
            else ⟨evs1, .cancelled, a.k + 1⟩
          | .ok ent =>
            let evs2 := evs1 ++
              [Ev.progress (reactPostMsg (ent.title.getD p0) mid),
                Ev.getReactions mid limit]
            match renv.reactionsRes with
            | .error e =>
              ⟨evs2 ++ [Ev.errorSig (reactFetchErr e)],
                .failed (reactFetchErr e), a.k⟩
            | .ok resp =>
              let recs := reactGo resp.reactions limit resp.users []
              if runningAt ca a.k then
                ⟨evs2, .completed (reactionsTitle mid) recs, a.k + 1⟩
              else ⟨evs2, .cancelled, a.k + 1⟩
      | _ =>
        ⟨a.events ++ [Ev.errorSig reactionsLinkErr],
          .failed reactionsLinkErr, a.k⟩
  else ⟨[], .cancelled, 1⟩

/-! ## Concrete example data, used by witnesses and counterexamples -/

/-- An authentication environment whose stored session is already
authorized. -/
def happyAuth : AuthEnv :=
  { isAuthorized := true, meFirstName := "Иван".toList,
    phoneInput := Option.none, codeInput := Option.none,
    passwordInput := Option.none, sendCodeResults := [],
    signInRes := .ok, pwdSignInErr := Option.none }

/-- A resolved channel entity. -/
def chanEnt : Entity :=
  { title := some "Чат".toList, isChannel := true, participantsCount := 2 }

/-- A sample online user. -/
def u1 : User :=
  { id := 11, username := some "u1".toList, firstName := some "Аня".toList,
    lastName := Option.none, phone := Option.none, status := some .online,
    bot := false, verified := false, scam := false, premium := false }

/-- A second sample user, with everything hidden. -/
def u2 : User :=
  { id := 22, username := Option.none, firstName := Option.none,
    lastName := Option.none, phone := Option.none, status := Option.none,
    bot := false, verified := false, scam := false, premium := false }

/-- A sample message whose sender resolved. -/
def m1 : Msg :=
  { id := 5, date := "2024-01-01 00:00:00".toList, text := some "hi".toList,
    message := Option.none, media := Option.none, sender := some u1 }

/-- A sample message whose sender did not resolve. -/
def m2 : Msg :=
  { id := 6, date := "2024-01-02 00:00:00".toList, text := some "yo".toList,
    message := Option.none, media := Option.none, sender := Option.none }

/-! ## Helper lemmas on the string primitives -/

lemma mem_of_isPrefixOf {a : Char} :
    ∀ {l₁ l₂ : List Char}, l₁.isPrefixOf l₂ = true → a ∈ l₁ → a ∈ l₂ := by
  intro l₁
  induction l₁ with
  | nil => intro l₂ _ ha; cases ha
  | cons x xs ih =>
    intro l₂ hp ha
    cases l₂ with
    | nil => simp [List.isPrefixOf] at hp
    | cons y ys =>
      simp only [List.isPrefixOf, Bool.and_eq_true, beq_iff_eq] at hp
      rcases List.mem_cons.mp ha with h | h
      · exact List.mem_cons.mpr (Or.inl (h.trans hp.1))
      · exact List.mem_cons.mpr (Or.inr (ih hp.2 h))

lemma pyReplaceAux_of_not_mem {c : Char} {old : List Char} (hc : c ∈ old)
    (new : List Char) :
    ∀ (fuel : Nat) (s : List Char), c ∉ s →
      pyReplaceAux old new fuel s = s := by
  intro fuel
  induction fuel with
  | zero => intro s _; cases s <;> rfl
  | succ n ih =>
    intro s hs
    cases s with
    | nil => rfl
    | cons x rest =>
      have hnp : ¬(old ≠ [] ∧ old.isPrefixOf (x :: rest) = true) := by
        rintro ⟨-, hp⟩
        exact hs (mem_of_isPrefixOf hp hc)
      rw [pyReplaceAux, if_neg hnp, ih rest fun h => hs (List.mem_cons_of_mem x h)]

lemma pyReplace_of_not_mem {c : Char} {old : List Char} (hc : c ∈ old)
    (new s : List Char) (hs : c ∉ s) : pyReplace old new s = s :=
  pyReplaceAux_of_not_mem hc new s.length s hs

lemma pySplit_ne_nil (sep : Char) : ∀ s : List Char, pySplit sep s ≠ [] := by
  intro s
  cases s with
  | nil => simp [pySplit]
  | cons c rest => simp only [pySplit]; split <;> simp

lemma split0_cons (sep c : Char) (rest : List Char) :
    split0 sep (c :: rest) =
      if c = sep then [] else c :: split0 sep rest := by
  simp only [split0, pySplit]
  split <;> rfl

lemma not_mem_split0 (sep : Char) : ∀ s : List Char, sep ∉ split0 sep s := by
  intro s
  induction s with
  | nil => simp [split0, pySplit]
  | cons c rest ih =>
    rw [split0_cons]
    split
    · simp
    · next h => simp only [List.mem_cons]; rintro (rfl | hm) <;> [exact h rfl; exact ih hm]

lemma mem_split0 {a sep : Char} : ∀ {s : List Char}, a ∈ split0 sep s → a ∈ s := by
  intro s
  induction s with
  | nil => simp [split0, pySplit]
  | cons c rest ih =>
    rw [split0_cons]
    split
    · simp
    · simp only [List.mem_cons]; rintro (rfl | hm) <;> [exact Or.inl rfl; exact Or.inr (ih hm)]

lemma not_mem_dropAfter_self (sep : Char) (l : List Char) :
    sep ∉ dropAfter sep l := by
  unfold dropAfter
  split
  · exact not_mem_split0 sep l
  · assumption

lemma mem_dropAfter {a sep : Char} {l : List Char}
    (h : a ∈ dropAfter sep l) : a ∈ l := by
  unfold dropAfter at h
  split at h
  · exact mem_split0 h
  · exact h

lemma dropAfter_of_not_mem {sep : Char} {l : List Char} (h : sep ∉ l) :
    dropAfter sep l = l := by
  unfold dropAfter
  rw [if_neg h]

/-- The output of `_clean_link` contains no `/` and no `?`. -/
lemma cleanLink_no_sep (s : List Char) :
    '/' ∉ cleanLink s ∧ '?' ∉ cleanLink s := by
  unfold cleanLink
  refine ⟨fun h => ?_, not_mem_dropAfter_self _ _⟩
  exact not_mem_dropAfter_self '/' _ (mem_dropAfter h)

/-! ## Loop lemmas -/

lemma fetchLoop_none_fst {α : Type} (mk : Nat → List Ev) :
    ∀ (xs : List α) (k : Nat) (acc : List α) (evs : List Ev),
      (fetchLoop Option.none mk xs k acc evs).1 = acc ++ xs := by
  intro xs
  induction xs with
  | nil => intro k acc evs; simp [fetchLoop]
  | cons x rest ih =>
    intro k acc evs
    rw [fetchLoop, if_pos (show runningAt Option.none k = true from rfl)]
    dsimp only
    rw [ih]
    simp

lemma fetchLoop_none_k {α : Type} (mk : Nat → List Ev) :
    ∀ (xs : List α) (k : Nat) (acc : List α) (evs : List Ev),
      (fetchLoop Option.none mk xs k acc evs).2.2 = k + xs.length := by
  intro xs
  induction xs with
  | nil => intro k acc evs; simp [fetchLoop]
  | cons x rest ih =>
    intro k acc evs
    rw [fetchLoop, if_pos (show runningAt Option.none k = true from rfl)]
    dsimp only
    rw [ih]
    simp only [List.length_cons]
    omega

lemma membersTransform_none_fst (adminIds : List Int) (total : Nat) :
    ∀ (xs : List User) (k idx : Nat) (acc : List Record) (evs : List Ev),
      (membersTransform Option.none adminIds total xs k idx acc evs).1 =
        acc ++ xs.map (memberRecord adminIds) := by
  intro xs
  induction xs with
  | nil => intro k idx acc evs; simp [membersTransform]
  | cons u rest ih =>
    intro k idx acc evs
    rw [membersTransform,
      if_pos (show runningAt Option.none k = true from rfl)]
    dsimp only
    rw [ih]
    simp

lemma reactGo_zero_cons (rs : List RPeer) (u : User) (rest : List User)
    (acc : List Record) :
    reactGo rs 0 (u :: rest) acc = acc ++ [reactionRecord rs u] := by
  rw [reactGo, if_pos (by simp)]

lemma reactGo_length_le (rs : List RPeer) (limit : Nat) :
    ∀ (us : List User) (acc : List Record), acc.length < limit →
      (reactGo rs limit us acc).length ≤ limit := by
  intro us
  induction us with
  | nil => intro acc h; exact Nat.le_of_lt h
  | cons u rest ih =>
    intro acc h
    rw [reactGo]
    split
    · simpa using h
    · next hn =>
      exact ih (acc ++ [reactionRecord rs u]) (by simp at hn ⊢; omega)

/-! ## Happy-path run lemmas -/

lemma membersParse_happy (aenv : AuthEnv) (menv : MembersEnv)
    (link : List Char) (limit : Nat) (ent : Entity)
    (hA : (ensureAuth aenv Option.none 1).res = .ok)
    (hE : menv.getEntityRes = .ok ent) :
    (membersParse aenv menv link limit Option.none).outcome =
      .completed (ent.title.getD [])
        ((menv.participants.take limit).map
          (memberRecord (menv.adminIdsRes.getD []))) := by
  rcases hards : ensureAuth aenv Option.none 1 with ⟨aevs, ares, ak⟩
  rw [hards] at hA
  simp only at hA
  subst hA
  simp only [membersParse, hards, hE, runningAt]
  rw [membersTransform_none_fst, fetchLoop_none_fst]
  simp

lemma messagesParse_happy (aenv : AuthEnv) (msenv : MsgsEnv)
    (link : List Char) (limit : Nat) (ent : Entity)
    (hA : (ensureAuth aenv Option.none 1).res = .ok)
    (hE : msenv.getEntityRes = .ok ent) :
    (messagesParse aenv msenv link limit Option.none).outcome =
      .completed (msgsTitle (ent.title.getD (cleanLink link)))
        ((msenv.messages.take limit).map msgRecord) := by
  rcases hards : ensureAuth aenv Option.none 1 with ⟨aevs, ares, ak⟩
  rw [hards] at hA
  simp only at hA
  subst hA
  simp only [messagesParse, hards, hE, runningAt]
  rw [fetchLoop_none_fst]
  simp

lemma commentsParse_happy (aenv : AuthEnv) (cenv : CommentsEnv)
    (link : List Char) (limit : Nat) (ent : Entity) (p0 p1 : List Char)
    (ps : List (List Char)) (mid : Int)
    (hA : (ensureAuth aenv Option.none 1).res = .ok)
    (hL : postLinkParts link = p0 :: p1 :: ps)
    (hI : pyInt (split0 '?' p1) = some mid)
    (hE : cenv.getEntityRes = .ok ent) :
    (commentsParse aenv cenv link limit Option.none).outcome =
      .completed (commentsTitle mid)
        ((cenv.comments.take limit).map commentRecord) := by
  rcases hards : ensureAuth aenv Option.none 1 with ⟨aevs, ares, ak⟩
  rw [hards] at hA
  simp only at hA
  subst hA
  simp only [commentsParse, hards, hL, hI, hE, runningAt]
  rw [fetchLoop_none_fst]
  simp

lemma reactionsParse_happy (aenv : AuthEnv) (renv : ReactionsEnv)
    (link : List Char) (limit : Nat) (ent : Entity) (p0 p1 : List Char)
    (ps : List (List Char)) (mid : Int) (resp : ReactResponse)
    (hA : (ensureAuth aenv Option.none 1).res = .ok)
    (hL : postLinkParts link = p0 :: p1 :: ps)
    (hI : pyInt (split0 '?' p1) = some mid)
    (hE : renv.getEntityRes = .ok ent)
    (hR : renv.reactionsRes = .ok resp) :
    (reactionsParse aenv renv link limit Option.none).outcome =
      .completed (reactionsTitle mid)
        (reactGo resp.reactions limit resp.users []) := by
  rcases hards : ensureAuth aenv Option.none 1 with ⟨aevs, ares, ak⟩
  rw [hards] at hA
  simp only at hA
  subst hA
  simp only [reactionsParse, hards, hL, hI, hE, hR, runningAt]
  simp

/-! ## Claim theorems -/

/-- C9: `get_user_status_text` is total on presence statuses: each known
variant (online, offline, recently, last-week, last-month, empty, and an
absent/`None` status) maps to its exact display label, any unrecognized
variant maps to the long-ago fallback label `Давно`, and no input ever
yields the empty string. -/
theorem statusClassifier_total :
    getUserStatusText Option.none = "Скрыто".toList ∧
    getUserStatusText (some .online) = "Онлайн".toList ∧
    (∀ t, getUserStatusText (some (.offline t)) = "Оффлайн".toList) ∧
    getUserStatusText (some .recently) = "Недавно".toList ∧
    getUserStatusText (some .lastWeek) = "Был на этой неделе".toList ∧
    getUserStatusText (some .lastMonth) = "Был в этом месяце".toList ∧
    getUserStatusText (some .empty) = "Скрыто".toList ∧
    getUserStatusText (some .other) = "Давно".toList ∧
    ∀ s, getUserStatusText s ≠ [] := by
  refine ⟨rfl, rfl, fun t => rfl, rfl, rfl, rfl, rfl, rfl, ?_⟩
  intro s h
  rcases s with _ | st
  · exact absurd (show "Скрыто".toList = ([] : List Char) from h) (by decide)
  · cases st <;>
      first
      | exact absurd (show "Онлайн".toList = ([] : List Char) from h)
          (by decide)
      | exact absurd (show "Оффлайн".toList = ([] : List Char) from h)
          (by decide)
      | exact absurd (show "Недавно".toList = ([] : List Char) from h)
          (by decide)
      | exact absurd
          (show "Был на этой неделе".toList = ([] : List Char) from h)
          (by decide)
      | exact absurd
          (show "Был в этом месяце".toList = ([] : List Char) from h)
          (by decide)
      | exact absurd (show "Скрыто".toList = ([] : List Char) from h)
          (by decide)
      | exact absurd (show "Давно".toList = ([] : List Char) from h)
          (by decide)

/-- C5 counterexample: on `https://t.me/@foo/123?x=1` the post-link
parsing of the comments and reactions collectors does *not* produce
channel part `foo`: the `@` sigil is never stripped on this path, so the
channel part is `@foo`. -/
theorem postLink_channel_not_foo :
    postChannelPart "https://t.me/@foo/123?x=1".toList ≠
      some "foo".toList ∧
    postChannelPart "https://t.me/@foo/123?x=1".toList =
      some "@foo".toList :=
  ⟨by decide, by decide⟩

/-- C5 amended: `https://t.me/@foo/123?x=1` parses to channel part
`@foo` (URL prefix and trailing query stripped, the `@` sigil kept) and
numeric post id `123`; consequently a comments run on that link resolves
the entity under the name `@foo`. -/
theorem postLink_parse_example :
    postChannelPart "https://t.me/@foo/123?x=1".toList =
      some "@foo".toList ∧
    (postMsgIdStr "https://t.me/@foo/123?x=1".toList).bind pyInt =
      some 123 ∧
    Ev.getEntity "@foo".toList ∈
      (commentsParse happyAuth ⟨.ok chanEnt, []⟩
        "https://t.me/@foo/123?x=1".toList 1 Option.none).events :=
  ⟨by decide, by decide, by decide⟩

/-- C4 counterexample: `_clean_link` is not idempotent on every input:
on `"@@a"` it returns `"@a"`, and a second application strips another
leading `@`. -/
theorem cleanLink_not_idempotent :
    cleanLink (cleanLink "@@a".toList) ≠ cleanLink "@@a".toList := by
  decide

/-- C4 amended: `_clean_link` is idempotent on every input whose
normalized form has no leading `@` and no surrounding whitespace (the
only normalization steps that can still fire on a second pass; the
output never contains a URL prefix, `/`, or `?`). -/
theorem cleanLink_idempotent_of_clean (s : List Char)
    (h1 : "@".toList.isPrefixOf (cleanLink s) = false)
    (h2 : pyStrip (cleanLink s) = cleanLink s) :
    cleanLink (cleanLink s) = cleanLink s := by
  have hs := cleanLink_no_sep s
  have e1 : pyReplace httpsPat [] (cleanLink s) = cleanLink s :=
    pyReplace_of_not_mem (c := '/') (by decide) [] _ hs.1
  have e2 : pyReplace tmePat [] (cleanLink s) = cleanLink s :=
    pyReplace_of_not_mem (c := '/') (by decide) [] _ hs.1
  have e3 : dropAfter '/' (cleanLink s) = cleanLink s :=
    dropAfter_of_not_mem hs.1
  have e4 : dropAfter '?' (cleanLink s) = cleanLink s :=
    dropAfter_of_not_mem hs.2
  conv_lhs => rw [cleanLink]
  simp only [h2, e1, e2, h1, Bool.false_eq_true, if_false, e3, e4]

/-- C4 amended witness at `https://t.me/@foo/123?x=1`, whose normalized
form `foo` satisfies both side conditions. -/
theorem cleanLink_idempotent_witness :
    "@".toList.isPrefixOf
        (cleanLink "https://t.me/@foo/123?x=1".toList) = false ∧
    pyStrip (cleanLink "https://t.me/@foo/123?x=1".toList) =
      cleanLink "https://t.me/@foo/123?x=1".toList ∧
    cleanLink (cleanLink "https://t.me/@foo/123?x=1".toList) =
      cleanLink "https://t.me/@foo/123?x=1".toList :=
  ⟨by decide, by decide,
    cleanLink_idempotent_of_clean _ (by decide) (by decide)⟩

/-- C8: when the stored session already authorizes a user, `ensure_auth`
short-circuits to success: it connects, checks authorization, fetches
the current user, emits exactly one status message carrying the user's
first name, and emits no phone/code prompt and no password prompt. -/
theorem ensureAuth_short_circuit (env : AuthEnv) (ca : Option Nat) (k : Nat)
    (h : env.isAuthorized = true) :
    ensureAuth env ca k =
      ⟨[.connect, .checkAuthorized, .getMe,
        .progress (authOkMsg env.meFirstName)], .ok, k⟩ ∧
    (∀ m, Ev.authCodePrompt m ∉ (ensureAuth env ca k).events) ∧
    Ev.authPasswordPrompt ∉ (ensureAuth env ca k).events := by
  have hp : authPre env ca false k =
      Sum.inl ⟨[.connect, .checkAuthorized, .getMe,
        .progress (authOkMsg env.meFirstName)], .ok, k⟩ := by
    unfold authPre
    simp [h]
  have he : ensureAuth env ca k =
      ⟨[.connect, .checkAuthorized, .getMe,
        .progress (authOkMsg env.meFirstName)], .ok, k⟩ := by
    unfold ensureAuth
    cases env.sendCodeResults <;> simp only [ensureAuthGo, hp]
  refine ⟨he, fun m => ?_, ?_⟩
  · rw [he]; simp
  · rw [he]; simp

/-- C8 witness: the concrete authorized environment `happyAuth`. -/
theorem ensureAuth_short_circuit_witness :
    happyAuth.isAuthorized = true ∧
    ensureAuth happyAuth Option.none 1 =
      ⟨[.connect, .checkAuthorized, .getMe,
        .progress (authOkMsg happyAuth.meFirstName)], .ok, 1⟩ :=
  ⟨rfl, (ensureAuth_short_circuit happyAuth Option.none 1 rfl).1⟩

/-- C2 counterexample: with `limit = 0` and a remote reactions response
containing one user, the reactions run completes with one record, not
with an empty record list: the source appends a record before checking
`len(parsed) >= self.limit`. -/
theorem reactions_limit_zero_not_empty :
    (reactionsParse happyAuth
        ⟨.ok chanEnt, .ok ⟨[u1], [⟨11, "👍".toList⟩]⟩⟩
        "c/1".toList 0 Option.none).outcome =
      .completed (reactionsTitle 1)
        [reactionRecord [⟨11, "👍".toList⟩] u1] ∧
    (reactionsParse happyAuth
        ⟨.ok chanEnt, .ok ⟨[u1], [⟨11, "👍".toList⟩]⟩⟩
        "c/1".toList 0 Option.none).outcome ≠
      .completed (reactionsTitle 1) [] :=
  ⟨by decide, by decide⟩

/-- C2 amended: with `limit = 0`, successful authentication and
resolution, and no cancellation, the members, messages and comments
collectors complete with their title and an empty record list; the
reactions collector also completes, but its record list is empty only
when the response's user list is empty — otherwise it holds exactly the
first response user's record. -/
theorem limit_zero_outcomes
    (aenv : AuthEnv) (menv : MembersEnv) (msenv : MsgsEnv)
    (cenv : CommentsEnv) (renv : ReactionsEnv)
    (lnkM lnkS lnkC lnkR : List Char)
    (entM entS entC entR : Entity)
    (p0 p1 : List Char) (ps : List (List Char)) (midC : Int)
    (q0 q1 : List Char) (qs : List (List Char)) (midR : Int)
    (resp : ReactResponse)
    (hA : (ensureAuth aenv Option.none 1).res = .ok)
    (hEM : menv.getEntityRes = .ok entM)
    (hES : msenv.getEntityRes = .ok entS)
    (hEC : cenv.getEntityRes = .ok entC)
    (hLC : postLinkParts lnkC = p0 :: p1 :: ps)
    (hIC : pyInt (split0 '?' p1) = some midC)
    (hER : renv.getEntityRes = .ok entR)
    (hLR : postLinkParts lnkR = q0 :: q1 :: qs)
    (hIR : pyInt (split0 '?' q1) = some midR)
    (hRR : renv.reactionsRes = .ok resp) :
    (membersParse aenv menv lnkM 0 Option.none).outcome =
      .completed (entM.title.getD []) [] ∧
    (messagesParse aenv msenv lnkS 0 Option.none).outcome =
      .completed (msgsTitle (entS.title.getD (cleanLink lnkS))) [] ∧
    (commentsParse aenv cenv lnkC 0 Option.none).outcome =
      .completed (commentsTitle midC) [] ∧
    (reactionsParse aenv renv lnkR 0 Option.none).outcome =
      .completed (reactionsTitle midR)
        (match resp.users with
         | [] => []
         | u :: _ => [reactionRecord resp.reactions u]) := by
  refine ⟨?_, ?_, ?_, ?_⟩
  · simpa using membersParse_happy aenv menv lnkM 0 entM hA hEM
  · simpa using messagesParse_happy aenv msenv lnkS 0 entS hA hES
  · simpa using
      commentsParse_happy aenv cenv lnkC 0 entC p0 p1 ps midC hA hLC hIC hEC
  · rw [reactionsParse_happy aenv renv lnkR 0 entR q0 q1 qs midR resp
      hA hLR hIR hER hRR]
    rcases hu : resp.users with _ | ⟨u, us⟩
    · rfl
    · rw [reactGo_zero_cons]
      simp

/-- C2 amended witness at concrete environments (empty reactions
response, so even the reactions run yields an empty record list). -/
theorem limit_zero_outcomes_witness :
    (membersParse happyAuth ⟨.ok chanEnt, some [11], [u1, u2]⟩
        "t.me/x".toList 0 Option.none).outcome =
      .completed (chanEnt.title.getD []) [] ∧
    (messagesParse happyAuth ⟨.ok chanEnt, [m1]⟩
        "@c".toList 0 Option.none).outcome =
      .completed (msgsTitle (chanEnt.title.getD (cleanLink "@c".toList))) [] ∧
    (commentsParse happyAuth ⟨.ok chanEnt, [m1]⟩
        "t.me/c/77".toList 0 Option.none).outcome =
      .completed (commentsTitle 77) [] ∧
    (reactionsParse happyAuth ⟨.ok chanEnt, .ok ⟨[], []⟩⟩
        "c/9".toList 0 Option.none).outcome =
      .completed (reactionsTitle 9) [] := by
  have h := limit_zero_outcomes happyAuth
    ⟨.ok chanEnt, some [11], [u1, u2]⟩ ⟨.ok chanEnt, [m1]⟩
    ⟨.ok chanEnt, [m1]⟩ ⟨.ok chanEnt, .ok ⟨[], []⟩⟩
    "t.me/x".toList "@c".toList "t.me/c/77".toList "c/9".toList
    chanEnt chanEnt chanEnt chanEnt
    "c".toList "77".toList [] 77 "c".toList "9".toList [] 9 ⟨[], []⟩
    (by decide) rfl rfl rfl (by decide) (by decide) rfl (by decide)
    (by decide) rfl
  exact ⟨h.1, h.2.1, h.2.2.1, h.2.2.2⟩

/-- C3 counterexample: with `limit = 0` and a response containing one
user, the reactions run completes with one record — more than `limit`. -/
theorem reactions_exceeds_zero_limit :
    (reactionsParse happyAuth ⟨.ok chanEnt, .ok ⟨[u2], []⟩⟩
        "c/2".toList 0 Option.none).outcome =
      .completed (reactionsTitle 2) [reactionRecord [] u2] ∧
    ¬ ([reactionRecord ([] : List RPeer) u2].length ≤ 0) :=
  ⟨by decide, by decide⟩

/-- C3 amended: for every *positive* `limit`, every environment and
every cancellation schedule, a reactions run that completes emits at
most `limit` records, even when the response's user list is longer.
(`limit = 0` is the one exception: a record is appended before the
bound is checked.) -/
theorem reactions_at_most_limit (aenv : AuthEnv) (renv : ReactionsEnv)
    (link : List Char) (limit : Nat) (ca : Option Nat) (t : List Char)
    (recs : List Record) (hl : 1 ≤ limit)
    (h : (reactionsParse aenv renv link limit ca).outcome =
      .completed t recs) :
    recs.length ≤ limit := by
  revert h
  simp only [reactionsParse]
  repeat' split
  all_goals intro h
  all_goals simp_all
  rw [← h.2]
  exact reactGo_length_le _ _ _ _ (by simpa using hl)

/-- C3 amended witness: `limit = 1` with a two-user response. -/
theorem reactions_at_most_limit_witness :
    (reactionsParse happyAuth ⟨.ok chanEnt, .ok ⟨[u1, u2], []⟩⟩
        "c/3".toList 1 Option.none).outcome =
      .completed (reactionsTitle 3) [reactionRecord [] u1] ∧
    [reactionRecord ([] : List RPeer) u1].length ≤ 1 :=
  ⟨by decide,
    reactions_at_most_limit happyAuth ⟨.ok chanEnt, .ok ⟨[u1, u2], []⟩⟩
      "c/3".toList 1 Option.none (reactionsTitle 3)
      [reactionRecord [] u1] (le_refl 1) (by decide)⟩

/-- C7: a failing admin-identifier fetch is non-fatal: with the admin
iteration erroring (`Option.none`), a members run still completes, its
records are built against the empty admin set, and every emitted
record's `Is Admin` field is the localized "no". -/
theorem members_admin_fetch_nonfatal (aenv : AuthEnv) (menv : MembersEnv)
    (link : List Char) (limit : Nat) (ent : Entity)
    (hA : (ensureAuth aenv Option.none 1).res = .ok)
    (hE : menv.getEntityRes = .ok ent)
    (hAd : menv.adminIdsRes = Option.none) :
    (membersParse aenv menv link limit Option.none).outcome =
      .completed (ent.title.getD [])
        ((menv.participants.take limit).map (memberRecord [])) ∧
    ∀ r ∈ (menv.participants.take limit).map (memberRecord []),
      recField "Is Admin".toList r = some (.str noStr) := by
  constructor
  · have h := membersParse_happy aenv menv link limit ent hA hE
    rw [hAd] at h
    simpa using h
  · intro r hr
    rcases List.mem_map.mp hr with ⟨u, hu, rfl⟩
    rfl

/-- C7 witness at a concrete failing admin fetch. -/
theorem members_admin_fetch_nonfatal_witness :
    (membersParse happyAuth ⟨.ok chanEnt, Option.none, [u1]⟩
        "t.me/x".toList 5 Option.none).outcome =
      .completed (chanEnt.title.getD [])
        (([u1].take 5).map (memberRecord [])) :=
  (members_admin_fetch_nonfatal happyAuth ⟨.ok chanEnt, Option.none, [u1]⟩
    "t.me/x".toList 5 chanEnt (by decide) rfl rfl).1

/-- C10: when a message's sender cannot be resolved, the messages and
comments collectors still emit a record for it, whose Author ID,
Username, First Name and Last Name fields are all the empty string; and
in a completed run every fetched message yields its record (the
transform skips nobody). -/
theorem senderless_record_empty_fields :
    (∀ m : Msg, m.sender = Option.none →
      recField "Author ID".toList (msgRecord m) = some (.str []) ∧
      recField "Username".toList (msgRecord m) = some (.str []) ∧
      recField "First Name".toList (msgRecord m) = some (.str []) ∧
      recField "Last Name".toList (msgRecord m) = some (.str []) ∧
      recField "Author ID".toList (commentRecord m) = some (.str []) ∧
      recField "Username".toList (commentRecord m) = some (.str []) ∧
      recField "First Name".toList (commentRecord m) = some (.str []) ∧
      recField "Last Name".toList (commentRecord m) = some (.str [])) ∧
    (∀ (aenv : AuthEnv) (msenv : MsgsEnv) (link : List Char) (limit : Nat)
      (ent : Entity),
      (ensureAuth aenv Option.none 1).res = .ok →
      msenv.getEntityRes = .ok ent →
      (messagesParse aenv msenv link limit Option.none).outcome =
        .completed (msgsTitle (ent.title.getD (cleanLink link)))
          ((msenv.messages.take limit).map msgRecord)) ∧
    (∀ (aenv : AuthEnv) (cenv : CommentsEnv) (link : List Char)
      (limit : Nat) (ent : Entity) (p0 p1 : List Char)
      (ps : List (List Char)) (mid : Int),
      (ensureAuth aenv Option.none 1).res = .ok →
      postLinkParts link = p0 :: p1 :: ps →
      pyInt (split0 '?' p1) = some mid →
      cenv.getEntityRes = .ok ent →
      (commentsParse aenv cenv link limit Option.none).outcome =
        .completed (commentsTitle mid)
          ((cenv.comments.take limit).map commentRecord)) := by
  refine ⟨?_, ?_, ?_⟩
  · intro m hm
    obtain ⟨mi, md, mt, mm, mme, msender⟩ := m
    change msender = Option.none at hm
    subst hm
    exact ⟨rfl, rfl, rfl, rfl, rfl, rfl, rfl, rfl⟩
  · intro aenv msenv link limit ent hA hE
    exact messagesParse_happy aenv msenv link limit ent hA hE
  · intro aenv cenv link limit ent p0 p1 ps mid hA hL hI hE
    exact commentsParse_happy aenv cenv link limit ent p0 p1 ps mid hA hL hI hE

/-- C10 witness at the concrete sender-less message `m2`. -/
theorem senderless_record_witness :
    recField "Author ID".toList (msgRecord m2) = some (.str []) ∧
    (messagesParse happyAuth ⟨.ok chanEnt, [m2]⟩
        "@c".toList 3 Option.none).outcome =
      .completed (msgsTitle (chanEnt.title.getD (cleanLink "@c".toList)))
        (([m2].take 3).map msgRecord) :=
  ⟨(senderless_record_empty_fields.1 m2 rfl).1,
    senderless_record_empty_fields.2.1 happyAuth ⟨.ok chanEnt, [m2]⟩
      "@c".toList 3 chanEnt (by decide) rfl⟩

/-! ## Cancellation analysis -/

lemma membersParse_completed_checks (aenv : AuthEnv) (menv : MembersEnv)
    (link : List Char) (limit c : Nat) (t : List Char) (r : List Record)
    (h : (membersParse aenv menv link limit (some c)).outcome =
      .completed t r) :
    (membersParse aenv menv link limit (some c)).checks ≤ c := by
  revert h
  simp only [membersParse]
  repeat' split
  all_goals intro h
  all_goals simp_all [runningAt]
  all_goals omega

lemma messagesParse_completed_checks (aenv : AuthEnv) (msenv : MsgsEnv)
    (link : List Char) (limit c : Nat) (t : List Char) (r : List Record)
    (h : (messagesParse aenv msenv link limit (some c)).outcome =
      .completed t r) :
    (messagesParse aenv msenv link limit (some c)).checks ≤ c := by
  revert h
  simp only [messagesParse]
  repeat' split
  all_goals intro h
  all_goals simp_all [runningAt]
  all_goals omega

lemma commentsParse_completed_checks (aenv : AuthEnv) (cenv : CommentsEnv)
    (link : List Char) (limit c : Nat) (t : List Char) (r : List Record)
    (h : (commentsParse aenv cenv link limit (some c)).outcome =
      .completed t r) :
    (commentsParse aenv cenv link limit (some c)).checks ≤ c := by
  revert h
  simp only [commentsParse]
  repeat' split
  all_goals intro h
  all_goals simp_all [runningAt]
  all_goals omega

lemma reactionsParse_completed_checks (aenv : AuthEnv) (renv : ReactionsEnv)
    (link : List Char) (limit c : Nat) (t : List Char) (r : List Record)
    (h : (reactionsParse aenv renv link limit (some c)).outcome =
      .completed t r) :
    (reactionsParse aenv renv link limit (some c)).checks ≤ c := by
  revert h
  simp only [reactionsParse]
  repeat' split
  all_goals intro h
  all_goals simp_all [runningAt]
  all_goals omega

/-- C6: for every collector and every environment, a run that observes a
requested cancellation never ends Completed.  A run whose outcome is
Completed performed every one of its flag reads strictly before the
cancellation index (`checks ≤ c`) — contrapositively, once the
cancellation becomes visible at any read the run performs, the outcome
is not Completed and the buffered records are discarded.  A run
cancelled before its first read ends Cancelled, never `Completed([])`. -/
theorem cancelled_never_completed
    (aenv : AuthEnv) (menv : MembersEnv) (msenv : MsgsEnv)
    (cenv : CommentsEnv) (renv : ReactionsEnv)
    (lnkM lnkS lnkC lnkR : List Char) (limit c : Nat) :
    (∀ t r, (membersParse aenv menv lnkM limit (some c)).outcome =
        .completed t r →
      (membersParse aenv menv lnkM limit (some c)).checks ≤ c) ∧
    (∀ t r, (messagesParse aenv msenv lnkS limit (some c)).outcome =
        .completed t r →
      (messagesParse aenv msenv lnkS limit (some c)).checks ≤ c) ∧
    (∀ t r, (commentsParse aenv cenv lnkC limit (some c)).outcome =
        .completed t r →
      (commentsParse aenv cenv lnkC limit (some c)).checks ≤ c) ∧
    (∀ t r, (reactionsParse aenv renv lnkR limit (some c)).outcome =
        .completed t r →
      (reactionsParse aenv renv lnkR limit (some c)).checks ≤ c) ∧
    (membersParse aenv menv lnkM limit (some 0)).outcome = .cancelled ∧
    (messagesParse aenv msenv lnkS limit (some 0)).outcome = .cancelled ∧
    (commentsParse aenv cenv lnkC limit (some 0)).outcome = .cancelled ∧
    (reactionsParse aenv renv lnkR limit (some 0)).outcome = .cancelled :=
  ⟨fun t r h => membersParse_completed_checks aenv menv lnkM limit c t r h,
    fun t r h => messagesParse_completed_checks aenv msenv lnkS limit c t r h,
    fun t r h => commentsParse_completed_checks aenv cenv lnkC limit c t r h,
    fun t r h => reactionsParse_completed_checks aenv renv lnkR limit c t r h,
    rfl, rfl, rfl, rfl⟩

/-- C6 witness: a concrete members run that completes under a late
cancellation index (`c = 100`) indeed performed all its reads before
index 100. -/
theorem cancelled_never_completed_witness :
    (membersParse happyAuth ⟨.ok chanEnt, some [11], [u1, u2]⟩
        "t.me/x".toList 10 (some 100)).checks ≤ 100 :=
  (cancelled_never_completed happyAuth ⟨.ok chanEnt, some [11], [u1, u2]⟩
    ⟨.ok chanEnt, [m1]⟩ ⟨.ok chanEnt, [m1]⟩ ⟨.ok chanEnt, .ok ⟨[], []⟩⟩
    "t.me/x".toList "@c".toList "t.me/c/77".toList "c/9".toList 10 100).1
    (chanEnt.title.getD [])
    [memberRecord [11] u1, memberRecord [11] u2] (by decide)

/-! ## Authentication traces contain no data fetch -/

lemma authPre_inl_events {env : AuthEnv} {ca : Option Nat}
    {connected : Bool} {k : Nat} {r : AuthOut}
    (h : authPre env ca connected k = Sum.inl r) :
    (r.events.all fun e => !e.isRemoteFetch) = true := by
  cases connected <;>
    · unfold authPre at h
      repeat' split at h
      all_goals
        first
          | (injection h with h2; subst h2; simp [Ev.isRemoteFetch])
          | (injection h)

lemma authPre_inr_events {env : AuthEnv} {ca : Option Nat}
    {connected : Bool} {k : Nat} {v : List Char × List Ev × Nat}
    (h : authPre env ca connected k = Sum.inr v) :
    (v.2.1.all fun e => !e.isRemoteFetch) = true := by
  cases connected <;>
    · unfold authPre at h
      repeat' split at h
      all_goals
        first
          | (injection h with h2; subst h2; simp [Ev.isRemoteFetch])
          | (injection h)

lemma afterCode_events_all {env : AuthEnv} {ca : Option Nat}
    {phone : List Char} {evs : List Ev} {k : Nat}
    (hevs : (evs.all fun e => !e.isRemoteFetch) = true) :
    ((afterCode env ca phone evs k).events.all
      fun e => !e.isRemoteFetch) = true := by
  unfold afterCode
  repeat' split
  all_goals simp_all [List.all_append, Ev.isRemoteFetch]

lemma ensureAuthGo_events_all (env : AuthEnv) (ca : Option Nat) :
    ∀ (attempts : List SendCodeRes) (connected : Bool) (k : Nat),
      ((ensureAuthGo env ca attempts connected k).events.all
        fun e => !e.isRemoteFetch) = true := by
  intro attempts
  induction attempts with
  | nil =>
    intro connected k
    rw [ensureAuthGo]
    cases hp : authPre env ca connected k with
    | inl r => exact authPre_inl_events hp
    | inr v =>
      obtain ⟨ph, evs, k'⟩ := v
      have := authPre_inr_events hp
      simp_all [List.all_append, Ev.isRemoteFetch]
  | cons a rest ih =>
    intro connected k
    rw [ensureAuthGo]
    cases hp : authPre env ca connected k with
    | inl r => exact authPre_inl_events hp
    | inr v =>
      obtain ⟨ph, evs, k'⟩ := v
      have hev := authPre_inr_events hp
      cases a with
      | ok => exact afterCode_events_all hev
      | fail m => simp_all [List.all_append, Ev.isRemoteFetch]
      | floodWait n =>
        have hr := ih true k'
        simp_all [List.all_append, Ev.isRemoteFetch]

lemma ensureAuth_no_fetch (env : AuthEnv) (ca : Option Nat) (k : Nat) :
    ∀ e ∈ (ensureAuth env ca k).events, e.isRemoteFetch = false := by
  intro e he
  have h := ensureAuthGo_events_all env ca env.sendCodeResults false k
  rw [List.all_eq_true] at h
  have hb := h e he
  simpa using hb

/-- C1 counterexample: a comments run on `https://t.me/123` — a link the
GUI's post-link regex accepts, whose stripped form `123` has fewer than
two `/`-separated parts — connects and authenticates *before* reporting
the invalid-link error: the connect/authorization events precede the
error signal in its trace, so the job did start a connection and an
authentication step. -/
theorem invalid_link_after_auth :
    (commentsParse happyAuth ⟨.ok chanEnt, []⟩ "https://t.me/123".toList
        10 Option.none).events =
      [.progress initMsg, .connect, .checkAuthorized, .getMe,
        .progress (authOkMsg "Иван".toList), .errorSig commentsLinkErr] ∧
    Ev.connect ∈ (commentsParse happyAuth ⟨.ok chanEnt, []⟩
        "https://t.me/123".toList 10 Option.none).events ∧
    (commentsParse happyAuth ⟨.ok chanEnt, []⟩ "https://t.me/123".toList
        10 Option.none).outcome = .failed commentsLinkErr :=
  ⟨by decide, by decide, by decide⟩

/-- C1 amended: in the comments and reactions collectors an invalid post
link (fewer than two `/`-separated parts after prefix stripping) is
reported only *after* connection and authentication: when authentication
succeeds, the run fails with the invalid-link message, and its whole
trace — the authentication handshake followed by the error signal —
contains no entity resolution and no data fetch. -/
theorem invalid_link_reported_before_fetch
    (aenv : AuthEnv) (cenv : CommentsEnv) (renv : ReactionsEnv)
    (link : List Char) (limit : Nat)
    (hA : (ensureAuth aenv Option.none 1).res = .ok)
    (hL : (postLinkParts link).length < 2) :
    (commentsParse aenv cenv link limit Option.none).outcome =
      .failed commentsLinkErr ∧
    (∀ e ∈ (commentsParse aenv cenv link limit Option.none).events,
      e.isRemoteFetch = false) ∧
    (reactionsParse aenv renv link limit Option.none).outcome =
      .failed reactionsLinkErr ∧
    (∀ e ∈ (reactionsParse aenv renv link limit Option.none).events,
      e.isRemoteFetch = false) := by
  have hnf := ensureAuth_no_fetch aenv Option.none 1
  rcases hards : ensureAuth aenv Option.none 1 with ⟨aevs, ares, ak⟩
  rw [hards] at hA hnf
  simp only at hA
  subst hA
  simp only at hnf
  have hmemC : ∀ e ∈ [Ev.progress initMsg] ++ aevs ++
      [Ev.errorSig commentsLinkErr], e.isRemoteFetch = false := by
    intro e he
    rcases List.mem_append.mp he with he | he
    · rcases List.mem_append.mp he with he | he
      · simp only [List.mem_singleton] at he; subst he; rfl
      · exact hnf e he
    · simp only [List.mem_singleton] at he; subst he; rfl
  have hmemR : ∀ e ∈ aevs ++ [Ev.errorSig reactionsLinkErr],
      e.isRemoteFetch = false := by
    intro e he
    rcases List.mem_append.mp he with he | he
    · exact hnf e he
    · simp only [List.mem_singleton] at he; subst he; rfl
  rcases hq : postLinkParts link with _ | ⟨p0, _ | ⟨p1, rest⟩⟩
  · have hc : commentsParse aenv cenv link limit Option.none =
        ⟨[Ev.progress initMsg] ++ aevs ++ [Ev.errorSig commentsLinkErr],
          .failed commentsLinkErr, ak⟩ := by
      simp [commentsParse, hards, hq, runningAt]
    have hr : reactionsParse aenv renv link limit Option.none =
        ⟨aevs ++ [Ev.errorSig reactionsLinkErr],
          .failed reactionsLinkErr, ak⟩ := by
      simp [reactionsParse, hards, hq, runningAt]
    exact ⟨by rw [hc], by rw [hc]; exact hmemC,
      by rw [hr], by rw [hr]; exact hmemR⟩
  · have hc : commentsParse aenv cenv link limit Option.none =
        ⟨[Ev.progress initMsg] ++ aevs ++ [Ev.errorSig commentsLinkErr],
          .failed commentsLinkErr, ak⟩ := by
      simp [commentsParse, hards, hq, runningAt]
    have hr : reactionsParse aenv renv link limit Option.none =
        ⟨aevs ++ [Ev.errorSig reactionsLinkErr],
          .failed reactionsLinkErr, ak⟩ := by
      simp [reactionsParse, hards, hq, runningAt]
    exact ⟨by rw [hc], by rw [hc]; exact hmemC,
      by rw [hr], by rw [hr]; exact hmemR⟩
  · rw [hq] at hL
    simp at hL
    omega

/-- C1 amended witness: concrete authorized run on the partless link
`abc`. -/
theorem invalid_link_reported_before_fetch_witness :
    (commentsParse happyAuth ⟨.ok chanEnt, []⟩ "abc".toList 2
        Option.none).outcome = .failed commentsLinkErr ∧
    (reactionsParse happyAuth ⟨.ok chanEnt, .ok ⟨[], []⟩⟩ "abc".toList 2
        Option.none).outcome = .failed reactionsLinkErr := by
  have h := invalid_link_reported_before_fetch happyAuth ⟨.ok chanEnt, []⟩
    ⟨.ok chanEnt, .ok ⟨[], []⟩⟩ "abc".toList 2 (by decide) (by decide)
  exact ⟨h.1, h.2.2.1⟩

end TGpars
